import Mathlib

/-!
Verification of the droidypaste API client (`src/services/api.ts`) and the
upload-list sorting logic (`src/app/(tabs)/index.tsx`) against its
natural-language specification.

The TypeScript source is shallowly embedded: each operation becomes a pure
Lean function from its inputs (and, where relevant, a simulated HTTP
response) to an `Except ApiError` result.  JavaScript strings are Lean
`String`s; the char-wise prefix test of `String.prototype.startsWith` is
embedded as a prefix check on the underlying character lists.  Platform
builtins that the client merely calls (`JSON.parse`, `localeCompare`,
`Date.getTime`) are parameters of the embedding.
-/

/-- `ApiError` from `src/services/api.ts` (lines 15-23): a message plus an
optional HTTP status code.  Every error in the client's taxonomy is an
`ApiError` distinguished by its message (and status code). -/
structure ApiError where
  message : String
  statusCode : Option Nat := none
deriving DecidableEq, Repr

instance {ε α : Type} [DecidableEq ε] [DecidableEq α] : DecidableEq (Except ε α) := fun a b =>
  match a, b with
  | .error e, .error f => decidable_of_iff (e = f) (by simp)
  | .error _, .ok _ => isFalse (by simp)
  | .ok _, .error _ => isFalse (by simp)
  | .ok x, .ok y => decidable_of_iff (x = y) (by simp)

/-- JavaScript `s.startsWith(p)`: `p`'s characters are a prefix of `s`'s. -/
def jsStartsWith (s p : String) : Bool :=
  p.data.isPrefixOf s.data

/-- `formatUrl` (`src/services/api.ts` lines 25-28).  The `replace` call with
the anchored regex `^http://` rewrites a leading `http://` to `https://` and
otherwise leaves the string unchanged (`http://` is 7 characters).  Then
`https://` is prepended unless already present. -/
def formatUrl (serverUrl : String) : String :=
  let url := if jsStartsWith serverUrl "http://"
    then "https://" ++ serverUrl.drop 7
    else serverUrl
  if jsStartsWith url "https://" then url else "https://" ++ url

/-- A JavaScript value thrown during a request, as `handleApiError`
discriminates them: an `ApiError` (`instanceof ApiError`), some other
`Error` with its `name`, `message` and whether it is `instanceof TypeError`,
or a thrown non-`Error` value. -/
inductive Thrown where
  | api (e : ApiError)
  | err (isTypeError : Bool) (name message : String)
  | nonError
deriving DecidableEq, Repr

/-- `handleApiError` (`src/services/api.ts` lines 30-53): classifies a thrown
value into an `ApiError`.  `ApiError`s pass through; an `Error` named
`AbortError` (the fetch-abort of the 10 s timeout) becomes the timeout
error; a `TypeError` with one of the two well-known transport messages
becomes the connectivity error; any other `Error` is wrapped keeping its
message; a non-`Error` value becomes the unknown network error. -/
def handleApiError : Thrown → ApiError
  | .api e => e
  | .err isTypeError name message =>
    if name = "AbortError" then
      { message := "Request timed out after 10 seconds" }
    else if isTypeError &&
        (message == "Failed to fetch" || message == "Network request failed") then
      { message := "Unable to connect to server. Please check your internet connection." }
    else
      { message := message }
  | .nonError => { message := "Unknown network error" }

/-- `UploadOptions` (`src/services/api.ts` lines 10-13).  In the source both
fields are optional; an absent `expiry` behaves as the empty string (the
truthy test skips it) and an absent `oneshot` behaves as `false`. -/
structure UploadOptions where
  expiry : String := ""
  oneshot : Bool := false
deriving DecidableEq, Repr

/-- A value appended to a `FormData`: the pseudo-file object of `uploadText`
(lines 68-73), the file reference of `uploadFile` (line 137), or a plain
string field (`shortenUrl`, `uploadFromRemoteUrl`). -/
inductive FormValue where
  | filePart (uri type name string : String)
  | fileRef (uri type name : String)
  | str (value : String)
deriving DecidableEq, Repr

/-- The HTTP request an operation hands to `fetch`: final URL, method, the
ordered form fields of its body, and its headers. -/
structure Request where
  url : String
  method : String
  fields : List (String × FormValue)
  headers : List (String × String)
deriving DecidableEq, Repr

/-- Headers shared by the upload operations: `Accept: */*` always,
`Authorization` only for a truthy (non-empty) token, `expire` only for a
truthy expiry option (`src/services/api.ts` lines 76-81, 140-142, 196-199,
356-358). -/
def buildHeaders (extra : List (String × String)) (authToken : String)
    (expiry : String) : List (String × String) :=
  [("Accept", "*/*")] ++ extra
    ++ (if authToken ≠ "" then [("Authorization", authToken)] else [])
    ++ (if expiry ≠ "" then [("expire", expiry)] else [])

/-- The request-building phase of `uploadText` (`src/services/api.ts` lines
55-97).  A `.error` result models a throw before `fetch` is ever called: the
empty-server-URL guard (lines 61-65) runs before the `FormData`, headers and
final URL are constructed, so no `Request` value exists on that path. -/
def uploadTextRequest (text serverUrl authToken : String)
    (options : UploadOptions) : Except ApiError Request :=
  if serverUrl = "" then
    .error { message := "Server URL must be configured" }
  else
    .ok {
      url := formatUrl serverUrl
      method := "POST"
      fields := [((if options.oneshot then "oneshot" else "file"),
        .filePart "text.txt" "text/plain" "text.txt" text)]
      headers := buildHeaders [("Accept-Encoding", "identity")] authToken options.expiry
    }

/-- The request-building phase of `uploadFile` (`src/services/api.ts` lines
121-157).  The filename is the last `/`-separated segment of the URI, or
`"file"` when that segment is empty (`uri.split("/").pop() || "file"`,
line 136). -/
def uploadFileRequest (uri serverUrl authToken : String)
    (options : UploadOptions) : Except ApiError Request :=
  if serverUrl = "" then
    .error { message := "Server URL must be configured" }
  else
    let filename := (uri.splitOn "/").getLastD ""
    let filename := if filename = "" then "file" else filename
    .ok {
      url := formatUrl serverUrl
      method := "POST"
      fields := [((if options.oneshot then "oneshot" else "file"),
        .fileRef uri "application/octet-stream" filename)]
      headers := buildHeaders [] authToken options.expiry
    }

/-- The request-building phase of `shortenUrl` (`src/services/api.ts` lines
181-215): a single plain form field named `oneshot_url` or `url`
(line 194). -/
def shortenUrlRequest (urlToShorten serverUrl authToken : String)
    (options : UploadOptions) : Except ApiError Request :=
  if serverUrl = "" then
    .error { message := "Server URL must be configured" }
  else
    .ok {
      url := formatUrl serverUrl
      method := "POST"
      fields := [((if options.oneshot then "oneshot_url" else "url"),
        .str urlToShorten)]
      headers := buildHeaders [] authToken options.expiry
    }

/-- The request-building phase of `uploadFromRemoteUrl`
(`src/services/api.ts` lines 341-373): a single plain form field that is
always named `remote`, with no one-shot variant (line 354). -/
def uploadFromRemoteUrlRequest (remoteUrl serverUrl authToken : String)
    (options : UploadOptions) : Except ApiError Request :=
  if serverUrl = "" then
    .error { message := "Server URL must be configured" }
  else
    .ok {
      url := formatUrl serverUrl
      method := "POST"
      fields := [("remote", .str remoteUrl)]
      headers := buildHeaders [] authToken options.expiry
    }

/-- A simulated HTTP response as the client observes it through `fetch`:
status code, status text (reason phrase) and body text. -/
structure Response where
  status : Nat
  statusText : String
  body : String
deriving DecidableEq, Repr

/-- `response.ok` of the fetch API: status in the inclusive range 200-299. -/
def Response.ok (r : Response) : Bool :=
  200 ≤ r.status && r.status ≤ 299

/-- The response-handling phase of `uploadText` (`src/services/api.ts` lines
100-118), given the simulated response of its `fetch`.  On `response.ok` the
body text is returned; otherwise an `ApiError` carrying the status code and
the message `Upload failed: ` followed by the body when non-empty, else the
status text (`responseText || response.statusText`), is thrown, caught by
the surrounding `catch` and passed through `handleApiError` before being
rethrown. -/
def uploadTextResult (text serverUrl authToken : String)
    (options : UploadOptions) (resp : Response) : Except ApiError String :=
  match uploadTextRequest text serverUrl authToken options with
  | .error e => .error e
  | .ok _ =>
    if resp.ok then
      .ok resp.body
    else
      .error (handleApiError (.api {
        message := "Upload failed: "
          ++ (if resp.body = "" then resp.statusText else resp.body)
        statusCode := some resp.status }))

/-- The record shape returned by `listUploads` (`src/services/api.ts` lines
242-244) and the `Upload` interface of `src/app/(tabs)/index.tsx` lines
13-17: file name, file size, and an expiration timestamp that is `null` for
uploads that never expire. -/
structure Upload where
  file_name : String
  file_size : Int
  expires_at_utc : Option String
deriving DecidableEq, Repr

/-- `listUploads` (`src/services/api.ts` lines 239-291), given the simulated
response of its `fetch` and a function `parse` standing for `JSON.parse`
specialised to this route: `parse body = some records` models a successful
parse as an array of records, `none` models `JSON.parse` throwing.  The
parse is wrapped in a `try`/`catch` that converts a throw into the
`Invalid JSON response from server` error (lines 268-272); on a non-ok
response, status 404 is mapped to the distinguished expose-list error
before the generic failure message is built (lines 274-285).  Every thrown
`ApiError` is routed through `handleApiError` by the outer `catch`. -/
def listUploadsResult (serverUrl authToken : String)
    (parse : String → Option (List Upload)) (resp : Response) :
    Except ApiError (List Upload) :=
  if serverUrl = "" then
    .error { message := "Server URL must be configured" }
  else
    let _ := authToken
    if resp.ok then
      match parse resp.body with
      | some records => .ok records
      | none => .error (handleApiError (.api
          { message := "Invalid JSON response from server" }))
    else if resp.status = 404 then
      .error (handleApiError (.api {
        message := "Make sure expose_list is set to true in your server config"
        statusCode := some 404 }))
    else
      .error (handleApiError (.api {
        message := "List request failed: "
          ++ (if resp.body = "" then resp.statusText else resp.body)
        statusCode := some resp.status }))

/-- `deleteFile` (`src/services/api.ts` lines 293-339), given the simulated
response of its `fetch`.  On a non-ok response, status 404 is mapped to the
distinguished delete-token error (lines 322-327); other failures build the
generic `Delete failed: ` message.  Thrown `ApiError`s are routed through
`handleApiError` by the outer `catch`; on success nothing is returned. -/
def deleteFileResult (fileName serverUrl deleteToken : String)
    (resp : Response) : Except ApiError Unit :=
  if serverUrl = "" then
    .error { message := "Server URL must be configured" }
  else
    let _ := (fileName, deleteToken)
    if resp.ok then
      .ok ()
    else if resp.status = 404 then
      .error (handleApiError (.api {
        message := "Make sure delete_token is set in your server config"
        statusCode := some 404 }))
    else
      .error (handleApiError (.api {
        message := "Delete failed: "
          ++ (if resp.body = "" then resp.statusText else resp.body)
        statusCode := some resp.status }))

/-- `SortField` of `src/app/(tabs)/index.tsx` line 19. -/
inductive SortField where
  | name
  | size
  | expiration
deriving DecidableEq, Repr

/-- `SortDirection` of `src/app/(tabs)/index.tsx` line 20. -/
inductive SortDirection where
  | asc
  | desc
deriving DecidableEq, Repr

/-- The comparator closure passed to `sortedUploads.sort` in `sortUploads`
(`src/app/(tabs)/index.tsx` lines 25-50).  `lc` stands for
`String.prototype.localeCompare` and `dt` for `s => new Date(s).getTime()`;
both are platform builtins the comparator calls, abstracted as parameters.
For the `expiration` field two `null` dates compare equal, a `null` date
compares after a non-`null` one (comparison value `1` / `-1`), and two
non-`null` dates compare by their numeric times.  The final result is the
raw comparison for direction `asc` and its negation for `desc`
(line 49). -/
def uploadComparator (lc : String → String → Int) (dt : String → Int)
    (field : SortField) (direction : SortDirection) (a b : Upload) : Int :=
  let comparison : Int :=
    match field with
    | .name => lc a.file_name b.file_name
    | .size => a.file_size - b.file_size
    | .expiration =>
      match a.expires_at_utc, b.expires_at_utc with
      | none, none => 0
      | none, some _ => 1
      | some _, none => -1
      | some da, some db => dt da - dt db
  match direction with
  | .asc => comparison
  | .desc => -comparison

/-- One insertion step of the embedding of `Array.prototype.sort`: `x` is
placed before the first element it strictly precedes under the comparator
(`cmp x y < 0`), and after every earlier element it ties with, which is
exactly the stable order ECMAScript guarantees for a consistent
comparator. -/
def jsSortInsert (cmp : α → α → Int) (x : α) : List α → List α
  | [] => [x]
  | y :: ys => if cmp x y < 0 then x :: y :: ys else y :: jsSortInsert cmp x ys

/-- The embedding of `Array.prototype.sort(cmp)` as a stable insertion sort:
elements are inserted left to right, so later elements come after earlier
ones they tie with. -/
def jsSort (cmp : α → α → Int) (l : List α) : List α :=
  l.foldl (fun acc x => jsSortInsert cmp x acc) []

/-- `sortUploads` (`src/app/(tabs)/index.tsx` lines 22-53): spread the input
into a fresh array (`[...uploads]`, line 23), sort that copy in place with
the comparator, and return the copy. -/
def sortUploads (lc : String → String → Int) (dt : String → Int)
    (uploads : List Upload) (field : SortField) (direction : SortDirection) :
    List Upload :=
  let sortedUploads := uploads
  let sortedUploads := jsSort (uploadComparator lc dt field direction) sortedUploads
  sortedUploads

/-- The contents of the caller's `uploads` array after `sortUploads`
returns.  The source's only mutation is the in-place `.sort` on the fresh
spread copy `[...uploads]` (lines 23-25); the array the caller passed is
never written through, so its contents after the call are its contents
before the call. -/
def sortUploadsArgAfterCall (lc : String → String → Int) (dt : String → Int)
    (uploads : List Upload) (field : SortField) (direction : SortDirection) :
    List Upload :=
  let _ := (lc, dt, field, direction)
  uploads

/-- `blockLast p l` holds when every element of `l` satisfying `p` is
followed only by elements satisfying `p`: the `p`-elements form a suffix
block.  With `p = Option.isNone` on the expiration this is "every null
expiration comes after every non-null expiration". -/
def blockLast (p : α → Bool) : List α → Bool
  | [] => true
  | x :: xs => (!p x || xs.all p) && blockLast p xs

theorem jsStartsWith_append (p t : String) : jsStartsWith (p ++ t) p = true := by
  simp only [jsStartsWith, List.isPrefixOf_iff_prefix, String.data_append]
  exact List.prefix_append _ _

/-- C3: a leading `http://` is rewritten to `https://` with the rest of the
string kept; a string starting with neither scheme gets `https://`
prepended; and every normalized address starts with `https://`. -/
theorem formatUrl_https_normalization (s : String) :
    (jsStartsWith s "http://" = true → formatUrl s = "https://" ++ s.drop 7) ∧
    (jsStartsWith s "http://" = false → jsStartsWith s "https://" = false →
      formatUrl s = "https://" ++ s) ∧
    jsStartsWith (formatUrl s) "https://" = true := by
  refine ⟨fun h => ?_, fun h1 h2 => ?_, ?_⟩
  · simp [formatUrl, h, jsStartsWith_append]
  · simp [formatUrl, h1, h2]
  · by_cases h : jsStartsWith s "http://"
    · simp [formatUrl, h, jsStartsWith_append]
    · by_cases h2 : jsStartsWith s "https://"
      · simp [formatUrl, h, h2]
      · simp [formatUrl, h, h2, jsStartsWith_append]

theorem formatUrl_https_normalization_witness :
    formatUrl "http://paste.example" = "https://" ++ ("http://paste.example".drop 7) ∧
    formatUrl "paste.example" = "https://" ++ "paste.example" ∧
    jsStartsWith (formatUrl "ftp://odd") "https://" = true :=
  ⟨(formatUrl_https_normalization "http://paste.example").1 (by decide),
   (formatUrl_https_normalization "paste.example").2.1 (by decide) (by decide),
   (formatUrl_https_normalization "ftp://odd").2.2⟩

/-- C4: each of the four upload-style operations, called with an empty
server address, throws the configuration error from its guard clause; the
`.error` is produced by the request-building phase, before any `Request`
for `fetch` exists. -/
theorem emptyServerUrl_configurationError (text uri target remote authToken : String)
    (options : UploadOptions) :
    uploadTextRequest text "" authToken options
      = .error { message := "Server URL must be configured" } ∧
    uploadFileRequest uri "" authToken options
      = .error { message := "Server URL must be configured" } ∧
    shortenUrlRequest target "" authToken options
      = .error { message := "Server URL must be configured" } ∧
    uploadFromRemoteUrlRequest remote "" authToken options
      = .error { message := "Server URL must be configured" } :=
  ⟨rfl, rfl, rfl, rfl⟩

/-- C9: the one-shot request-field naming per operation: `uploadText` and
`uploadFile` name their multipart part `oneshot` when `options.oneshot` is
set and `file` otherwise; `shortenUrl` posts `oneshot_url` or `url`; and
`uploadFromRemoteUrl` always posts `remote`, whatever the options say. -/
theorem oneshot_field_naming (text uri target remote serverUrl authToken expiry : String)
    (h : serverUrl ≠ "") :
    (Except.map (fun r => r.fields.map Prod.fst)
      (uploadTextRequest text serverUrl authToken ⟨expiry, true⟩) = .ok ["oneshot"]) ∧
    (Except.map (fun r => r.fields.map Prod.fst)
      (uploadTextRequest text serverUrl authToken ⟨expiry, false⟩) = .ok ["file"]) ∧
    (Except.map (fun r => r.fields.map Prod.fst)
      (uploadFileRequest uri serverUrl authToken ⟨expiry, true⟩) = .ok ["oneshot"]) ∧
    (Except.map (fun r => r.fields.map Prod.fst)
      (uploadFileRequest uri serverUrl authToken ⟨expiry, false⟩) = .ok ["file"]) ∧
    (Except.map (fun r => r.fields.map Prod.fst)
      (shortenUrlRequest target serverUrl authToken ⟨expiry, true⟩) = .ok ["oneshot_url"]) ∧
    (Except.map (fun r => r.fields.map Prod.fst)
      (shortenUrlRequest target serverUrl authToken ⟨expiry, false⟩) = .ok ["url"]) ∧
    (∀ oneshot : Bool, Except.map (fun r => r.fields.map Prod.fst)
      (uploadFromRemoteUrlRequest remote serverUrl authToken ⟨expiry, oneshot⟩) = .ok ["remote"]) := by
  refine ⟨?_, ?_, ?_, ?_, ?_, ?_, fun oneshot => ?_⟩ <;>
    simp [uploadTextRequest, uploadFileRequest, shortenUrlRequest,
      uploadFromRemoteUrlRequest, h, Except.map]

theorem oneshot_field_naming_witness :
    Except.map (fun r => r.fields.map Prod.fst)
      (uploadTextRequest "hi" "paste.example" "" ⟨"", true⟩) = .ok ["oneshot"] ∧
    Except.map (fun r => r.fields.map Prod.fst)
      (shortenUrlRequest "https://t" "paste.example" "" ⟨"", false⟩) = .ok ["url"] ∧
    Except.map (fun r => r.fields.map Prod.fst)
      (uploadFromRemoteUrlRequest "https://r" "paste.example" "" ⟨"", true⟩) = .ok ["remote"] :=
  ⟨(oneshot_field_naming "hi" "u" "https://t" "https://r" "paste.example" "" "" (by decide)).1,
   (oneshot_field_naming "hi" "u" "https://t" "https://r" "paste.example" "" "" (by decide)).2.2.2.2.2.1,
   (oneshot_field_naming "hi" "u" "https://t" "https://r" "paste.example" "" "" (by decide)).2.2.2.2.2.2 true⟩

/-- C2 (amended): with a non-empty server address, a 2xx response makes
`uploadText` resolve with exactly the response body; a non-2xx response
makes it fail with an `ApiError` carrying the status code and the message
`Upload failed: ` followed by the response body when non-empty, else the
status line — the body is embedded in the message, prefix included, rather
than being the whole message. -/
theorem uploadText_response_contract (text serverUrl authToken : String)
    (options : UploadOptions) (resp : Response) (h : serverUrl ≠ "") :
    (resp.ok = true →
      uploadTextResult text serverUrl authToken options resp = .ok resp.body) ∧
    (resp.ok = false →
      uploadTextResult text serverUrl authToken options resp = .error {
        message := "Upload failed: "
          ++ (if resp.body = "" then resp.statusText else resp.body)
        statusCode := some resp.status }) := by
  constructor <;> intro hok <;>
    simp [uploadTextResult, uploadTextRequest, h, hok, handleApiError]

theorem uploadText_response_contract_witness :
    uploadTextResult "hello" "paste.example" "" ⟨"", false⟩
      ⟨200, "OK", "https://paste.example/abc"⟩ = .ok "https://paste.example/abc" ∧
    uploadTextResult "hello" "paste.example" "" ⟨"", false⟩
      ⟨500, "Internal Server Error", "boom"⟩
      = .error { message := "Upload failed: boom", statusCode := some 500 } :=
  ⟨(uploadText_response_contract "hello" "paste.example" "" ⟨"", false⟩
      ⟨200, "OK", "https://paste.example/abc"⟩ (by decide)).1 (by decide),
   (uploadText_response_contract "hello" "paste.example" "" ⟨"", false⟩
      ⟨500, "Internal Server Error", "boom"⟩ (by decide)).2 (by decide)⟩

/-- C2 counterexample: a simulated status-500 response with body `boom`
makes `uploadText` fail with the message `Upload failed: boom`, not with
the message `boom` the claim states. -/
theorem uploadText_serverError_message_cex :
    uploadTextResult "hi" "paste.example" "" ⟨"", false⟩
      ⟨500, "Internal Server Error", "boom"⟩
      = .error { message := "Upload failed: boom", statusCode := some 500 } ∧
    uploadTextResult "hi" "paste.example" "" ⟨"", false⟩
      ⟨500, "Internal Server Error", "boom"⟩
      ≠ .error { message := "boom", statusCode := some 500 } := by
  constructor <;> decide

/-- C8: `handleApiError` returns taxonomy errors (`ApiError`s) unchanged; an
abort of the 10-second timeout becomes the request-timeout error; a
`TypeError` carrying either well-known transport message becomes the
network-unavailable error; any other `Error` is wrapped keeping its
original message. -/
theorem handleApiError_classification :
    (∀ e : ApiError, handleApiError (.api e) = e) ∧
    (∀ (isTypeError : Bool) (msg : String),
      handleApiError (.err isTypeError "AbortError" msg)
        = { message := "Request timed out after 10 seconds" }) ∧
    (∀ (name msg : String), name ≠ "AbortError" →
      (msg = "Failed to fetch" ∨ msg = "Network request failed") →
      handleApiError (.err true name msg)
        = { message := "Unable to connect to server. Please check your internet connection." }) ∧
    (∀ (isTypeError : Bool) (name msg : String), name ≠ "AbortError" →
      ¬(isTypeError = true ∧ (msg = "Failed to fetch" ∨ msg = "Network request failed")) →
      handleApiError (.err isTypeError name msg) = { message := msg }) := by
  refine ⟨fun e => rfl, fun isTypeError msg => by simp [handleApiError],
    fun name msg h1 h2 => ?_, fun isTypeError name msg h1 h2 => ?_⟩
  · rcases h2 with h2 | h2 <;> simp [handleApiError, h1, h2]
  · have hc : (isTypeError
        && (msg == "Failed to fetch" || msg == "Network request failed")) = false := by
      cases hb : isTypeError with
      | false => simp
      | true =>
        subst hb
        simp only [Bool.true_and, Bool.or_eq_false_iff, beq_eq_false_iff_ne]
        exact And.intro (fun he => h2 (And.intro rfl (Or.inl he)))
          (fun he => h2 (And.intro rfl (Or.inr he)))
    simp [handleApiError, h1, hc]

theorem handleApiError_classification_witness :
    handleApiError (.api { message := "x", statusCode := some 7 })
      = { message := "x", statusCode := some 7 } ∧
    handleApiError (.err false "AbortError" "aborted")
      = { message := "Request timed out after 10 seconds" } ∧
    handleApiError (.err true "TypeError" "Failed to fetch")
      = { message := "Unable to connect to server. Please check your internet connection." } ∧
    handleApiError (.err false "Error" "oops") = { message := "oops" } :=
  ⟨handleApiError_classification.1 { message := "x", statusCode := some 7 },
   handleApiError_classification.2.1 false "aborted",
   handleApiError_classification.2.2.1 "TypeError" "Failed to fetch" (by decide) (Or.inl rfl),
   handleApiError_classification.2.2.2 false "Error" "oops" (by decide) (by decide)⟩

/-- C5: any status-404 response makes `listUploads` fail with the
distinguished expose-list error (status 404 and the dedicated message),
whose message is not an instance of the generic `List request failed: `
server-error message. -/
theorem listUploads_404_featureDisabled (serverUrl authToken : String)
    (parse : String → Option (List Upload)) (resp : Response)
    (h : serverUrl ≠ "") (h404 : resp.status = 404) :
    listUploadsResult serverUrl authToken parse resp
      = .error { message := "Make sure expose_list is set to true in your server config"
                 statusCode := some 404 } ∧
    jsStartsWith "Make sure expose_list is set to true in your server config"
      "List request failed: " = false := by
  have hok : resp.ok = false := by simp [Response.ok, h404]
  exact ⟨by simp [listUploadsResult, h, hok, h404, handleApiError], by decide⟩

theorem listUploads_404_featureDisabled_witness :
    listUploadsResult "paste.example" "" (fun _ => none) ⟨404, "Not Found", ""⟩
      = .error { message := "Make sure expose_list is set to true in your server config"
                 statusCode := some 404 } :=
  (listUploads_404_featureDisabled "paste.example" "" (fun _ => none)
    ⟨404, "Not Found", ""⟩ (by decide) rfl).1

/-- C6: any status-404 response makes `deleteFile` fail with the
distinguished delete-token error (status 404 and the dedicated message),
whose message is not an instance of the generic `Delete failed: `
server-error message. -/
theorem deleteFile_404_missingDeleteToken (fileName serverUrl deleteToken : String)
    (resp : Response) (h : serverUrl ≠ "") (h404 : resp.status = 404) :
    deleteFileResult fileName serverUrl deleteToken resp
      = .error { message := "Make sure delete_token is set in your server config"
                 statusCode := some 404 } ∧
    jsStartsWith "Make sure delete_token is set in your server config"
      "Delete failed: " = false := by
  have hok : resp.ok = false := by simp [Response.ok, h404]
  exact ⟨by simp [deleteFileResult, h, hok, h404, handleApiError], by decide⟩

theorem deleteFile_404_missingDeleteToken_witness :
    deleteFileResult "a.txt" "paste.example" "tok" ⟨404, "Not Found", ""⟩
      = .error { message := "Make sure delete_token is set in your server config"
                 statusCode := some 404 } :=
  (deleteFile_404_missingDeleteToken "a.txt" "paste.example" "tok"
    ⟨404, "Not Found", ""⟩ (by decide) rfl).1

/-- C7: on a 2xx response, a body `JSON.parse` rejects makes `listUploads`
fail with the invalid-JSON `ApiError` — the parse throw is converted by the
surrounding `try`/`catch`, so only an `ApiError` can come out — and a body
that parses as an array of records makes it resolve with exactly those
records. -/
theorem listUploads_json_contract (serverUrl authToken : String)
    (parse : String → Option (List Upload)) (resp : Response)
    (h : serverUrl ≠ "") (hok : resp.ok = true) :
    (parse resp.body = none →
      listUploadsResult serverUrl authToken parse resp
        = .error { message := "Invalid JSON response from server" }) ∧
    (∀ records : List Upload, parse resp.body = some records →
      listUploadsResult serverUrl authToken parse resp = .ok records) := by
  constructor
  · intro hp
    simp [listUploadsResult, h, hok, hp, handleApiError]
  · intro records hp
    simp [listUploadsResult, h, hok, hp]

theorem listUploads_json_contract_witness :
    listUploadsResult "paste.example" "" (fun _ => none) ⟨200, "OK", "not json"⟩
      = .error { message := "Invalid JSON response from server" } ∧
    listUploadsResult "paste.example" ""
      (fun _ => some [⟨"a.txt", 3, none⟩]) ⟨200, "OK", "[js array]"⟩
      = .ok [⟨"a.txt", 3, none⟩] :=
  ⟨(listUploads_json_contract "paste.example" "" (fun _ => none)
      ⟨200, "OK", "not json"⟩ (by decide) (by decide)).1 rfl,
   (listUploads_json_contract "paste.example" "" (fun _ => some [⟨"a.txt", 3, none⟩])
      ⟨200, "OK", "[js array]"⟩ (by decide) (by decide)).2 [⟨"a.txt", 3, none⟩] rfl⟩

theorem all_jsSortInsert (cmp : α → α → Int) (p : α → Bool) (x : α) (l : List α) :
    (jsSortInsert cmp x l).all p = (p x && l.all p) := by
  induction l with
  | nil => simp [jsSortInsert]
  | cons y ys ih =>
    by_cases hc : cmp x y < 0
    · simp [jsSortInsert, hc]
    · simp only [jsSortInsert, if_neg hc, List.all_cons, ih]
      rw [Bool.and_left_comm]

theorem blockLast_jsSortInsert (cmp : α → α → Int) (p : α → Bool)
    (h1 : ∀ a b, p a = true → p b = false → 0 ≤ cmp a b)
    (h2 : ∀ a b, p a = false → p b = true → cmp a b < 0)
    (x : α) (l : List α) (hl : blockLast p l = true) :
    blockLast p (jsSortInsert cmp x l) = true := by
  induction l with
  | nil =>
    simp [jsSortInsert, blockLast]
  | cons y ys ih =>
    rw [blockLast, Bool.and_eq_true] at hl
    obtain ⟨hy, hys⟩ := hl
    by_cases hc : cmp x y < 0
    · rw [jsSortInsert, if_pos hc, blockLast, Bool.and_eq_true]
      refine ⟨?_, by rw [blockLast, Bool.and_eq_true]; exact ⟨hy, hys⟩⟩
      cases hp : p x with
      | false => simp
      | true =>
        have hpy : p y = true := by
          cases hpy : p y with
          | true => rfl
          | false => exact absurd hc (not_lt.mpr (h1 x y hp hpy))
        rw [hpy] at hy
        simp only [Bool.not_true, Bool.false_or] at hy
        simp [hpy, hy]
    · rw [jsSortInsert, if_neg hc, blockLast, Bool.and_eq_true]
      refine ⟨?_, ih hys⟩
      cases hpy : p y with
      | false => simp
      | true =>
        rw [hpy] at hy
        simp only [Bool.not_true, Bool.false_or] at hy
        have hpx : p x = true := by
          cases hpx : p x with
          | true => rfl
          | false => exact absurd (h2 x y hpx hpy) hc
        simp [all_jsSortInsert, hpx, hy]

theorem blockLast_jsSort_go (cmp : α → α → Int) (p : α → Bool)
    (h1 : ∀ a b, p a = true → p b = false → 0 ≤ cmp a b)
    (h2 : ∀ a b, p a = false → p b = true → cmp a b < 0)
    (l : List α) (acc : List α) (hacc : blockLast p acc = true) :
    blockLast p (l.foldl (fun acc x => jsSortInsert cmp x acc) acc) = true := by
  induction l generalizing acc with
  | nil => exact hacc
  | cons x xs ih =>
    exact ih _ (blockLast_jsSortInsert cmp p h1 h2 x acc hacc)

theorem blockLast_jsSort (cmp : α → α → Int) (p : α → Bool)
    (h1 : ∀ a b, p a = true → p b = false → 0 ≤ cmp a b)
    (h2 : ∀ a b, p a = false → p b = true → cmp a b < 0)
    (l : List α) : blockLast p (jsSort cmp l) = true :=
  blockLast_jsSort_go cmp p h1 h2 l [] rfl

/-- C1 (amended): sorting by the expiration field places every record with a
null `expires_at_utc` after every record with a non-null one only for
direction `asc`; for direction `desc` the comparator's negation (line 49 of
the source) also flips the null placement, so the null records are placed
before every non-null record.  This holds for every `localeCompare` and
every `Date`-parsing function. -/
theorem sortUploads_null_placement (lc : String → String → Int) (dt : String → Int)
    (uploads : List Upload) :
    blockLast (fun u => u.expires_at_utc.isNone)
      (sortUploads lc dt uploads .expiration .asc) = true ∧
    blockLast (fun u => u.expires_at_utc.isSome)
      (sortUploads lc dt uploads .expiration .desc) = true := by
  constructor
  · refine blockLast_jsSort _ _ ?_ ?_ uploads
    · intro a b ha hb
      rw [Option.isNone_iff_eq_none] at ha
      cases hbe : b.expires_at_utc with
      | none => rw [hbe] at hb; simp at hb
      | some db => simp [uploadComparator, ha, hbe]
    · intro a b ha hb
      rw [Option.isNone_iff_eq_none] at hb
      cases hae : a.expires_at_utc with
      | none => rw [hae] at ha; simp at ha
      | some da => simp [uploadComparator, hae, hb]
  · refine blockLast_jsSort _ _ ?_ ?_ uploads
    · intro a b ha hb
      rw [Option.isSome_iff_exists] at ha
      obtain ⟨da, hae⟩ := ha
      cases hbe : b.expires_at_utc with
      | some db => rw [hbe] at hb; simp at hb
      | none => simp [uploadComparator, hae, hbe]
    · intro a b ha hb
      rw [Option.isSome_iff_exists] at hb
      obtain ⟨db, hbe⟩ := hb
      cases hae : a.expires_at_utc with
      | some da => rw [hae] at ha; simp at ha
      | none => simp [uploadComparator, hae, hbe]

/-- C1 counterexample: with direction `desc`, sorting a non-null-expiration
record and a null-expiration record by expiration puts the null record
first, so the null records do not come after the non-null ones regardless
of direction. -/
theorem sortUploads_null_placement_cex :
    sortUploads (fun _ _ => 0) (fun _ => 0)
      [⟨"a", 1, some "2024-01-01T00:00:00Z"⟩, ⟨"b", 2, none⟩] .expiration .desc
      = [⟨"b", 2, none⟩, ⟨"a", 1, some "2024-01-01T00:00:00Z"⟩] ∧
    blockLast (fun u => u.expires_at_utc.isNone)
      (sortUploads (fun _ _ => 0) (fun _ => 0)
        [⟨"a", 1, some "2024-01-01T00:00:00Z"⟩, ⟨"b", 2, none⟩] .expiration .desc)
      = false := by
  constructor <;> decide

theorem jsSortInsert_perm (cmp : α → α → Int) (x : α) (l : List α) :
    List.Perm (jsSortInsert cmp x l) (x :: l) := by
  induction l with
  | nil => exact List.Perm.refl _
  | cons y ys ih =>
    by_cases hc : cmp x y < 0
    · rw [jsSortInsert, if_pos hc]
    · rw [jsSortInsert, if_neg hc]
      exact (List.Perm.cons y ih).trans (List.Perm.swap x y ys)

theorem jsSort_go_perm (cmp : α → α → Int) (l acc : List α) :
    List.Perm (l.foldl (fun acc x => jsSortInsert cmp x acc) acc) (l ++ acc) := by
  induction l generalizing acc with
  | nil => exact List.Perm.refl _
  | cons x xs ih =>
    refine (ih (jsSortInsert cmp x acc)).trans ?_
    refine (List.Perm.append_left xs (jsSortInsert_perm cmp x acc)).trans ?_
    exact List.perm_middle

theorem jsSort_perm (cmp : α → α → Int) (l : List α) :
    List.Perm (jsSort cmp l) l := by
  simpa using jsSort_go_perm cmp l []

/-- C10: `sortUploads` never mutates the list passed to it: the caller's
array holds exactly the records it held before the call, in the same order,
because the source sorts the fresh spread copy `[...uploads]` in place and
returns that copy — which is a permutation of the input holding the same
records. -/
theorem sortUploads_preserves_input (lc : String → String → Int)
    (dt : String → Int) (uploads : List Upload) (field : SortField)
    (direction : SortDirection) :
    sortUploadsArgAfterCall lc dt uploads field direction = uploads ∧
    List.Perm (sortUploads lc dt uploads field direction) uploads :=
  ⟨rfl, jsSort_perm _ uploads⟩
